import Mathlib

/-!
Verification of the Matchamania rankings service.

This file shallowly embeds the ranking CRUD service (`src/main.py`), its
pydantic data model (`src/models/ranking.py`), the two-table relational
layout (`src/database.py`) and the Pub/Sub event consumer
(`src/cloud_function/main.py`) as pure Lean functions over an explicit
database state, and proves properties of the embedded operations.

Modelling conventions:
- `float` ratings and costs are modelled as `ℚ` (the code only ever
  compares them with `≤`, `≥` and `=`, never does arithmetic, so exact
  rationals model the comparisons faithfully);
- UUID strings (`str(uuid)` in the code) are modelled as `String`;
  the `uuid4()` surrogate ids generated for item rows are modelled by a
  monotone counter `nextItemId` threaded through the state;
- `datetime.utcnow()` is modelled by an explicit `now : Nat` argument to
  each mutating operation;
- an endpoint that raises `HTTPException` before `db.commit()` leaves the
  session to be rolled back on close, so each mutating operation returns
  the (unchanged) state paired with `Except.error`;
- the `detail` strings of 404 errors are the ones from the source; for the
  409 error the source interpolates the item name into the message, which
  we reproduce with plain string appends.
-/

/-- Origin enum from `src/models/ranking.py` (`home` | `cafe`), also used as
the SQL enum of `src/database.py`. -/
inductive Origin where
  | home
  | cafe
deriving DecidableEq, Repr

/-- Text value of an `Origin`, as stored in the enum column. -/
def Origin.value : Origin → String
  | .home => "home"
  | .cafe => "cafe"

/-- Parsing of the incoming origin string against the enum, as pydantic
does when validating the `origin` field. -/
def Origin.ofString (s : String) : Option Origin :=
  if s = "home" then some .home
  else if s = "cafe" then some .cafe
  else none

/-- Validated item payload: pydantic model `RankedItem` of
`src/models/ranking.py` (`name: str`, `origin: Origin`,
`rating: float = Field(..., ge=0, le=5)`, `cost_per_gram: float`). -/
structure RankedItem where
  name : String
  origin : Origin
  rating : ℚ
  cost_per_gram : ℚ
deriving DecidableEq, Repr

/-- Raw (pre-validation) item fields as they arrive in the JSON body. -/
structure RawRankedItem where
  name : String
  origin : String
  rating : ℚ
  cost_per_gram : ℚ
deriving DecidableEq, Repr

/-- Pydantic validation of `RankedItem`: the origin string must parse to
the enum and `rating` must satisfy `ge=0, le=5`; `name` and
`cost_per_gram` carry no constraint in the source model. -/
def validateRankedItem (r : RawRankedItem) : Option RankedItem :=
  match Origin.ofString r.origin with
  | none => none
  | some o =>
    if 0 ≤ r.rating ∧ r.rating ≤ 5 then
      some ⟨r.name, o, r.rating, r.cost_per_gram⟩
    else
      none

/-- Validated partial item payload: pydantic model `RankedItemUpdate`
(all fields `Optional`, default `None`; `rating` has `ge=0, le=5`). -/
structure RankedItemUpdate where
  name : Option String
  origin : Option Origin
  rating : Option ℚ
  cost_per_gram : Option ℚ
deriving DecidableEq, Repr

/-- Raw (pre-validation) partial item fields. -/
structure RawRankedItemUpdate where
  name : Option String
  origin : Option String
  rating : Option ℚ
  cost_per_gram : Option ℚ
deriving DecidableEq, Repr

/-- Validation of the optional `origin` field of a partial update: absent
is fine, present must parse against the enum. -/
def parseOptionalOrigin : Option String → Option (Option Origin)
  | none => some none
  | some s =>
    match Origin.ofString s with
    | none => none
    | some o => some (some o)

/-- Pydantic validation of `RankedItemUpdate`: a provided origin string
must parse, a provided rating must satisfy `ge=0, le=5`; `name` and
`cost_per_gram` carry no constraint. -/
def validateRankedItemUpdate (r : RawRankedItemUpdate) : Option RankedItemUpdate :=
  match parseOptionalOrigin r.origin with
  | none => none
  | some o =>
    match r.rating with
    | none => some ⟨r.name, o, none, r.cost_per_gram⟩
    | some q =>
      if 0 ≤ q ∧ q ≤ 5 then some ⟨r.name, o, some q, r.cost_per_gram⟩ else none

/-- Row of the `rankings` table (`RankingDB` in `src/database.py`):
id, user_id, created_at, updated_at. -/
structure RankingDB where
  id : String
  user_id : String
  created_at : Nat
  updated_at : Nat
deriving DecidableEq, Repr

/-- Row of the `ranked_items` table (`RankedItemDB` in `src/database.py`):
surrogate id, foreign key `ranking_id` (cascade delete), and the item
fields. -/
structure RankedItemDB where
  id : Nat
  ranking_id : String
  name : String
  origin : Origin
  rating : ℚ
  cost_per_gram : ℚ
deriving DecidableEq, Repr

/-- Forgets the surrogate id and foreign key of an item row, leaving the
payload fields. -/
def RankedItemDB.payload (x : RankedItemDB) : RankedItem :=
  ⟨x.name, x.origin, x.rating, x.cost_per_gram⟩

/-- The relational state: the two tables, in insertion order, plus the
supply counter for surrogate item ids. -/
structure Database where
  rankings : List RankingDB
  items : List RankedItemDB
  nextItemId : Nat
deriving DecidableEq, Repr

/-- Items of one ranking (`ranking.items` via the SQLAlchemy relationship),
in insertion order. -/
def Database.itemsOf (db : Database) (rid : String) : List RankedItemDB :=
  db.items.filter fun x => x.ranking_id = rid

/-- The query `db.query(RankingDB).filter(RankingDB.id == str(id)).first()`. -/
def Database.findRanking (db : Database) (rid : String) : Option RankingDB :=
  db.rankings.find? fun r => r.id = rid

/-- The query `db.query(RankingDB).filter(RankingDB.user_id == str(user_id)).first()`
used by `create_ranking`. -/
def Database.findByUser (db : Database) (uid : String) : Option RankingDB :=
  db.rankings.find? fun r => r.user_id = uid

/-- Response model `RankingRead`: id, user_id, validated items,
timestamps. -/
structure RankingRead where
  id : String
  user_id : String
  items : List RankedItem
  created_at : Nat
  updated_at : Nat
deriving DecidableEq, Repr

/-- `db_to_pydantic` of `src/main.py`, applied to a ranking row and the
item rows to expose as its items. -/
def db_to_pydantic (r : RankingDB) (its : List RankedItemDB) : RankingRead :=
  { id := r.id
    user_id := r.user_id
    items := its.map RankedItemDB.payload
    created_at := r.created_at
    updated_at := r.updated_at }

/-- HTTPException carrying a status code and a detail message. -/
structure HTTPError where
  status : Nat
  detail : String
deriving DecidableEq, Repr

/-- Optional query filters of `GET /ranking` in `src/main.py`. -/
structure Filters where
  min_rating : Option ℚ
  max_rating : Option ℚ
  max_cost : Option ℚ
  origin : Option Origin
deriving DecidableEq, Repr

/-- The four sequential filter passes of `list_rankings` in
`src/main.py` (each `if ... is not None: filtered_items = [...]`). -/
def applyFilters (f : Filters) (items0 : List RankedItemDB) : List RankedItemDB :=
  let items1 := match f.min_rating with
    | none => items0
    | some m => items0.filter fun i => m ≤ i.rating
  let items2 := match f.max_rating with
    | none => items1
    | some m => items1.filter fun i => i.rating ≤ m
  let items3 := match f.max_cost with
    | none => items2
    | some m => items2.filter fun i => i.cost_per_gram ≤ m
  match f.origin with
  | none => items3
  | some o => items3.filter fun i => i.origin = o

/-- `GET /ranking` (`list_rankings` in `src/main.py`): fetch the rankings
of the user, filter each ranking's items, and keep only rankings whose
filtered list is non-empty, exposing the filtered items. -/
def list_rankings (db : Database) (uid : String) (f : Filters) : List RankingRead :=
  (db.rankings.filter fun r => r.user_id = uid).filterMap fun r =>
    let filtered := applyFilters f (db.itemsOf r.id)
    if filtered.isEmpty then none
    else some (db_to_pydantic r filtered)

/-- Create payload: pydantic model `RankingCreate` (client-supplied id,
user_id, validated items). -/
structure RankingCreate where
  id : String
  user_id : String
  items : List RankedItem
deriving DecidableEq, Repr

/-- The nested duplicate scan of `create_ranking`:
`for existing_item in existing.items: for new_item in payload.items:`
raising on the first pair with equal name and origin; returns the
`new_item` of that first pair. -/
def findConflict (eis : List RankedItemDB) (nis : List RankedItem) : Option RankedItem :=
  match eis with
  | [] => none
  | ei :: rest =>
    match nis.find? (fun ni => ei.name = ni.name ∧ ei.origin = ni.origin) with
    | some ni => some ni
    | none => findConflict rest nis

/-- Assigns fresh surrogate ids (`str(uuid4())` in the source, a counter
here) to a list of new items for ranking `rid`, returning the rows and
the next counter value. -/
def assignIds (items : List RankedItem) (rid : String) (n : Nat) :
    List RankedItemDB × Nat :=
  match items with
  | [] => ([], n)
  | it :: rest =>
    let tail := assignIds rest rid (n + 1)
    (⟨n, rid, it.name, it.origin, it.rating, it.cost_per_gram⟩ :: tail.1, tail.2)

/-- The 409 error raised by `create_ranking`; the source interpolates the
new item's name and origin into the detail. -/
def conflictError (ni : RankedItem) : HTTPError :=
  ⟨409, "Item " ++ ni.name ++ " with origin " ++ ni.origin.value ++ " already exists"⟩

/-- `POST /ranking` (`create_ranking` in `src/main.py`, success status
201): looks up the FIRST ranking of the payload's user; if one exists,
scans its items against the payload for a (name, origin) collision and
raises 409 on the first one; otherwise inserts the new ranking row (both
timestamps defaulted to now) and its item rows with fresh surrogate
ids. -/
def create_ranking (db : Database) (now : Nat) (p : RankingCreate) :
    Database × Except HTTPError RankingRead :=
  let conflict :=
    match db.findByUser p.user_id with
    | none => none
    | some existing => findConflict (db.itemsOf existing.id) p.items
  match conflict with
  | some ni => (db, .error (conflictError ni))
  | none =>
    let rows := assignIds p.items p.id db.nextItemId
    let row : RankingDB := ⟨p.id, p.user_id, now, now⟩
    ({ rankings := db.rankings ++ [row]
       items := db.items ++ rows.1
       nextItemId := rows.2 },
     .ok (db_to_pydantic row rows.1))

/-- `GET /ranking/{id}` (`get_ranking` in `src/main.py`): 404 when absent,
otherwise the ranking with all its items. -/
def get_ranking (db : Database) (rid : String) : Except HTTPError RankingRead :=
  match db.findRanking rid with
  | none => .error ⟨404, "Not found"⟩
  | some r => .ok (db_to_pydantic r (db.itemsOf r.id))

/-- `PUT /ranking/{id}` (`replace_ranking` in `src/main.py`): 404 when the
ranking is absent; otherwise deletes every current item row of the
ranking, inserts the new items with fresh surrogate ids, and sets
`updated_at` to now. -/
def replace_ranking (db : Database) (now : Nat) (rid : String)
    (newItems : List RankedItem) : Database × Except HTTPError RankingRead :=
  match db.findRanking rid with
  | none => (db, .error ⟨404, "Not found"⟩)
  | some r =>
    let rows := assignIds newItems rid db.nextItemId
    let r2 : RankingDB := { r with updated_at := now }
    ({ rankings := db.rankings.map fun x => if x.id = rid then { x with updated_at := now } else x
       items := (db.items.filter fun x => ¬ x.ranking_id = rid) ++ rows.1
       nextItemId := rows.2 },
     .ok (db_to_pydantic r2 rows.1))

/-- `DELETE /ranking/{id}` (`delete_ranking` in `src/main.py`, success
status 204): 404 when absent; otherwise removes the ranking row, and the
`ondelete=CASCADE` foreign key of `src/database.py` removes every item
row of that ranking. -/
def delete_ranking (db : Database) (rid : String) :
    Database × Except HTTPError Unit :=
  match db.findRanking rid with
  | none => (db, .error ⟨404, "Not found"⟩)
  | some _ =>
    ({ rankings := db.rankings.filter fun r => ¬ r.id = rid
       items := db.items.filter fun x => ¬ x.ranking_id = rid
       nextItemId := db.nextItemId },
     .ok ())

/-- The four `if payload.field is not None: item.field = payload.field`
assignments of `update_single_item`, applied to an item row (surrogate id
and foreign key untouched). -/
def applyUpdate (p : RankedItemUpdate) (x : RankedItemDB) : RankedItemDB :=
  { x with
    name := p.name.getD x.name
    origin := p.origin.getD x.origin
    rating := p.rating.getD x.rating
    cost_per_gram := p.cost_per_gram.getD x.cost_per_gram }

/-- Replaces the element at position `n` (when it exists) by its image
under `f`. -/
def modifyIdx (f : α → α) : Nat → List α → List α
  | _, [] => []
  | 0, x :: xs => f x :: xs
  | n + 1, x :: xs => x :: modifyIdx f n xs

/-- Applies `f` to the `n`-th element satisfying `p` (counting from 0),
leaving every other element unchanged: the in-place mutation of
`ranking.items[item_index]` seen through the items table. -/
def updateMatch (p : α → Bool) (f : α → α) : Nat → List α → List α
  | _, [] => []
  | 0, x :: xs => if p x then f x :: xs else x :: updateMatch p f 0 xs
  | n + 1, x :: xs =>
    if p x then x :: updateMatch p f n xs else x :: updateMatch p f (n + 1) xs

/-- `PATCH /ranking/{id}/item/{item_index}` (`update_single_item` in
`src/main.py`): 404 `Ranking not found` when the ranking is absent; 404
`Item not found` unless `0 <= item_index < len(ranking.items)` (the path
parameter is a Python `int`, hence `Int` here); otherwise overwrites the
provided fields of the item at that position and sets `updated_at` to
now, answering 200 with a message. -/
def update_single_item (db : Database) (now : Nat) (rid : String) (idx : Int)
    (p : RankedItemUpdate) : Database × Except HTTPError String :=
  match db.findRanking rid with
  | none => (db, .error ⟨404, "Ranking not found"⟩)
  | some _ =>
    if 0 ≤ idx ∧ idx < ((db.itemsOf rid).length : Int) then
      ({ rankings := db.rankings.map fun x => if x.id = rid then { x with updated_at := now } else x
         items := updateMatch (fun x => x.ranking_id = rid) (applyUpdate p) idx.toNat db.items
         nextItemId := db.nextItemId },
       .ok "Item updated")
    else (db, .error ⟨404, "Item not found"⟩)

/-- Decoded Pub/Sub payload dictionary of the event consumer: the
`.get('ranking_id')` / `.get('event_type')` lookups may each be absent. -/
structure EventPayload where
  ranking_id : Option String
  event_type : Option String
deriving DecidableEq, Repr

/-- Observable outcome (the log branch taken) of one consumer
invocation. -/
inductive ConsumerOutcome where
  | noData
  | skipped
  | processed (found : Bool)
  | storeErrorLogged (msg : String)
deriving DecidableEq, Repr

/-- `process_ranking_event` of `src/cloud_function/main.py`. The argument
`event` models the envelope: `none` when the `data` key is absent,
`some (.error e)` when `base64.b64decode`/`json.loads` raises `e` (those
calls stand OUTSIDE the try block of the source, so the exception
propagates), `some (.ok d)` when decoding yields dictionary `d`.
`storeRead` models the `SELECT ... FROM rankings WHERE id = :id` row
lookup, which may fail with a store error; the try/except of the source
swallows any store failure and only logs it. -/
def process_ranking_event (event : Option (Except String EventPayload))
    (storeRead : Option String → Except String (Option RankingDB)) :
    Except String ConsumerOutcome :=
  match event with
  | none => .ok .noData
  | some (.error e) => .error e
  | some (.ok d) =>
    if d.event_type = some "ranking_created" then
      match storeRead d.ranking_id with
      | .ok (some _) => .ok (.processed true)
      | .ok none => .ok (.processed false)
      | .error e => .ok (.storeErrorLogged e)
    else .ok .skipped

/-- True of a response that succeeded. -/
def isOkB : Except HTTPError α → Bool
  | .ok _ => true
  | .error _ => false

/-- True of a response that failed with HTTP status 409. -/
def isConflictB : Except HTTPError α → Bool
  | .error e => e.status == 409
  | .ok _ => false

/-- True of a consumer invocation that returned normally (no exception
reached the caller). -/
def consumerOk : Except String ConsumerOutcome → Bool
  | .ok _ => true
  | .error _ => false

/-- Single-pass conjunction of the four optional filter predicates, as the
spec states them: rating above `min_rating`, below `max_rating`, cost at
most `max_cost`, origin equal to `origin`, each vacuous when unset. -/
def matchesFilters (f : Filters) (i : RankedItemDB) : Bool :=
  (match f.min_rating with | none => true | some m => decide (m ≤ i.rating)) &&
  (match f.max_rating with | none => true | some m => decide (i.rating ≤ m)) &&
  (match f.max_cost with | none => true | some m => decide (i.cost_per_gram ≤ m)) &&
  (match f.origin with | none => true | some o => decide (i.origin = o))

/-! Helper lemmas about the embedded operations. -/

theorem assignIds_payload (items : List RankedItem) (rid : String) (n : Nat) :
    ((assignIds items rid n).1).map RankedItemDB.payload = items := by
  induction items generalizing n with
  | nil => rfl
  | cons it rest ih => simp [assignIds, RankedItemDB.payload, ih]

theorem assignIds_ranking_id (items : List RankedItem) (rid : String) (n : Nat) :
    ∀ x ∈ (assignIds items rid n).1, x.ranking_id = rid := by
  induction items generalizing n with
  | nil => intro x hx; cases hx
  | cons it rest ih =>
    intro x hx
    rcases (List.mem_cons.mp hx) with h | h
    · rw [h]
    · exact ih (n + 1) x h

theorem find?_map_pres (g : α → α) (pb : α → Bool) (h : ∀ x, pb (g x) = pb x)
    (xs : List α) : (xs.map g).find? pb = (xs.find? pb).map g := by
  induction xs with
  | nil => rfl
  | cons x xs ih =>
    by_cases hx : pb x
    · rw [List.map_cons, List.find?_cons_of_pos _ (by rw [h]; exact hx),
        List.find?_cons_of_pos _ hx]
      rfl
    · rw [List.map_cons, List.find?_cons_of_neg _ (by rw [h]; simpa using hx),
        List.find?_cons_of_neg _ hx, ih]

theorem find?_bump (xs : List RankingDB) (rid rid2 : String) (now : Nat) :
    ((xs.map fun x => if x.id = rid then { x with updated_at := now } else x).find?
        fun x => x.id = rid2)
    = if rid2 = rid
      then (xs.find? fun x => x.id = rid2).map fun x => { x with updated_at := now }
      else xs.find? fun x => x.id = rid2 := by
  rw [find?_map_pres _ _ (by intro x; by_cases hx : x.id = rid <;> simp [hx])]
  by_cases hr : rid2 = rid
  · subst hr
    rw [if_pos rfl]
    rcases hfind : xs.find? fun x => x.id = rid2 with _ | a
    · rw [hfind]; rfl
    · have ha : a.id = rid2 := by simpa using List.find?_some hfind
      rw [hfind]
      simp [ha]
  · rw [if_neg hr]
    rcases hfind : xs.find? fun x => x.id = rid2 with _ | a
    · rw [hfind]; rfl
    · have ha : ¬ a.id = rid := by
        have h2 : a.id = rid2 := by simpa using List.find?_some hfind
        rw [h2]; exact hr
      rw [hfind]
      simp [ha]

theorem find?_filter_of_imp (pb qb : α → Bool) (h : ∀ x, qb x = true → pb x = true)
    (l : List α) : (l.filter pb).find? qb = l.find? qb := by
  induction l with
  | nil => rfl
  | cons x xs ih =>
    by_cases hp : pb x
    · rw [List.filter_cons_of_pos hp]
      by_cases hq : qb x
      · rw [List.find?_cons_of_pos _ hq, List.find?_cons_of_pos _ hq]
      · rw [List.find?_cons_of_neg _ hq, List.find?_cons_of_neg _ hq, ih]
    · rw [List.filter_cons_of_neg hp, ih,
        List.find?_cons_of_neg _ (fun hq => hp (h x hq))]

theorem filter_not_append_self (l rows : List RankedItemDB) (rid : String)
    (hrows : ∀ x ∈ rows, x.ranking_id = rid) :
    ((l.filter fun x => ¬ x.ranking_id = rid) ++ rows).filter
      (fun x => x.ranking_id = rid) = rows := by
  rw [List.filter_append]
  have h1 : ((l.filter fun x => ¬ x.ranking_id = rid).filter
      fun x => x.ranking_id = rid) = [] := by
    rw [List.filter_filter]
    apply List.filter_eq_nil_iff.mpr
    intro a _
    by_cases h : a.ranking_id = rid <;> simp [h]
  have h2 : rows.filter (fun x => x.ranking_id = rid) = rows :=
    List.filter_eq_self.mpr (by intro a ha; simp [hrows a ha])
  rw [h1, h2, List.nil_append]

theorem filter_not_append_other (l rows : List RankedItemDB) (rid rid2 : String)
    (hne : rid2 ≠ rid) (hrows : ∀ x ∈ rows, x.ranking_id = rid) :
    ((l.filter fun x => ¬ x.ranking_id = rid) ++ rows).filter
      (fun x => x.ranking_id = rid2) = l.filter fun x => x.ranking_id = rid2 := by
  rw [List.filter_append]
  have h1 : ((l.filter fun x => ¬ x.ranking_id = rid).filter
      fun x => x.ranking_id = rid2) = l.filter fun x => x.ranking_id = rid2 := by
    rw [List.filter_filter]
    apply List.filter_congr
    intro a _
    by_cases h : a.ranking_id = rid2
    · have hnr : ¬ a.ranking_id = rid := by rw [h]; exact hne
      simp [h, hnr, hne]
    · simp [h]
  have h2 : rows.filter (fun x => x.ranking_id = rid2) = [] := by
    apply List.filter_eq_nil_iff.mpr
    intro a ha
    simp [hrows a ha, Ne.symm hne]
  rw [h1, h2, List.append_nil]

theorem filter_updateMatch_self (pb : α → Bool) (f : α → α)
    (hf : ∀ x, pb (f x) = pb x) (n : Nat) (xs : List α) :
    (updateMatch pb f n xs).filter pb = modifyIdx f n (xs.filter pb) := by
  induction xs generalizing n with
  | nil => cases n <;> rfl
  | cons x xs ih =>
    rcases n with _ | m
    · by_cases hp : pb x
      · rw [updateMatch, if_pos hp, List.filter_cons_of_pos (by rw [hf]; exact hp),
          List.filter_cons_of_pos hp, modifyIdx]
      · rw [updateMatch, if_neg hp, List.filter_cons_of_neg hp,
          List.filter_cons_of_neg hp, ih]
    · by_cases hp : pb x
      · rw [updateMatch, if_pos hp, List.filter_cons_of_pos hp,
          List.filter_cons_of_pos hp, modifyIdx, ih]
      · rw [updateMatch, if_neg hp, List.filter_cons_of_neg hp,
          List.filter_cons_of_neg hp, ih]

theorem filter_updateMatch_other (pb qb : α → Bool) (f : α → α)
    (hpq : ∀ x, pb x = true → qb x = false) (hf : ∀ x, qb (f x) = qb x)
    (n : Nat) (xs : List α) :
    (updateMatch pb f n xs).filter qb = xs.filter qb := by
  induction xs generalizing n with
  | nil => cases n <;> rfl
  | cons x xs ih =>
    rcases n with _ | m
    · by_cases hp : pb x
      · have hq : ¬ qb x = true := by simp [hpq x hp]
        rw [updateMatch, if_pos hp, List.filter_cons_of_neg (by rw [hf]; exact hq),
          List.filter_cons_of_neg hq]
      · rw [updateMatch, if_neg hp]
        by_cases hq : qb x
        · rw [List.filter_cons_of_pos hq, List.filter_cons_of_pos hq, ih]
        · rw [List.filter_cons_of_neg hq, List.filter_cons_of_neg hq, ih]
    · by_cases hp : pb x
      · have hq : ¬ qb x = true := by simp [hpq x hp]
        rw [updateMatch, if_pos hp, List.filter_cons_of_neg hq,
          List.filter_cons_of_neg hq, ih]
      · rw [updateMatch, if_neg hp]
        by_cases hq : qb x
        · rw [List.filter_cons_of_pos hq, List.filter_cons_of_pos hq, ih]
        · rw [List.filter_cons_of_neg hq, List.filter_cons_of_neg hq, ih]

theorem updateMatch_of_id (pb : α → Bool) (f : α → α) (hf : ∀ x, f x = x)
    (n : Nat) (xs : List α) : updateMatch pb f n xs = xs := by
  induction xs generalizing n with
  | nil => cases n <;> rfl
  | cons x xs ih =>
    rcases n with _ | m
    · by_cases hp : pb x
      · rw [updateMatch, if_pos hp, hf]
      · rw [updateMatch, if_neg hp, ih]
    · by_cases hp : pb x
      · rw [updateMatch, if_pos hp, ih]
      · rw [updateMatch, if_neg hp, ih]

theorem modifyIdx_get? (f : α → α) (n i : Nat) (xs : List α) :
    (modifyIdx f n xs).get? i = if i = n then (xs.get? n).map f else xs.get? i := by
  induction xs generalizing n i with
  | nil => simp [modifyIdx]
  | cons x xs ih =>
    rcases n with _ | m
    · rcases i with _ | j
      · simp [modifyIdx]
      · simp [modifyIdx]
    · rcases i with _ | j
      · simp [modifyIdx]
      · simpa [modifyIdx, Nat.succ_inj] using ih m j

theorem applyFilters_eq (f : Filters) (xs : List RankedItemDB) :
    applyFilters f xs = xs.filter (matchesFilters f) := by
  obtain ⟨mn, mx, mc, og⟩ := f
  rcases mn with _ | m1 <;> rcases mx with _ | m2 <;> rcases mc with _ | m3 <;>
    rcases og with _ | o4 <;>
    simp only [applyFilters, List.filter_filter] <;>
    first
    | (symm
       apply List.filter_eq_self.mpr
       intro a _
       simp [matchesFilters])
    | (apply List.filter_congr
       intro a _
       simp [matchesFilters, Bool.and_comm, Bool.and_left_comm, Bool.and_assoc])

/-! Sample data used by witnesses and counterexamples. -/

/-- Database holding two rankings of user `u1`: ranking `r1` stores
(Sencha, home), ranking `r2` stores (Matcha Latte, cafe). -/
def c1db : Database :=
  { rankings := [⟨"r1", "u1", 0, 0⟩, ⟨"r2", "u1", 0, 0⟩]
    items := [⟨0, "r1", "Sencha", .home, 3, 1⟩, ⟨1, "r2", "Matcha Latte", .cafe, 4, 2⟩]
    nextItemId := 2 }

/-- Payload of user `u1` whose item collides with the item stored in
`r2` (the second ranking of the user), not with the one in `r1`. -/
def c1payload : RankingCreate := ⟨"r3", "u1", [⟨"Matcha Latte", .cafe, 4, 2⟩]⟩

/-- Claim C1, counterexample: the database stores, for user `u1`, an item
with the same name and origin as the payload's item (in the second
ranking `r2` of that user), yet `create_ranking` succeeds instead of
failing with 409, because the source checks the payload only against the
FIRST ranking returned for the user (`.first()` in `create_ranking`,
`src/main.py`). -/
theorem claim1_counterexample :
    ((c1db.rankings.filter fun r => r.user_id = "u1").any fun r =>
      (c1db.itemsOf r.id).any fun x =>
        c1payload.items.any fun ni => x.name = ni.name ∧ x.origin = ni.origin) = true ∧
    isOkB (create_ranking c1db 5 c1payload).2 = true := by decide

/-- Claim C1 (amended): creating a ranking fails with 409 exactly when an
item of the payload collides (same name and origin) with an item of the
FIRST stored ranking of that user; when the first stored ranking of the
user (if any) has no colliding item, creation succeeds — in particular
identical items created under two different user ids both succeed, since
the duplicate scan is scoped to the payload's user. -/
theorem claim1_amended :
    (∀ (db : Database) (now : Nat) (p : RankingCreate) (ex : RankingDB),
      db.findByUser p.user_id = some ex →
      (findConflict (db.itemsOf ex.id) p.items).isSome = true →
      isConflictB (create_ranking db now p).2 = true) ∧
    (∀ (db : Database) (now : Nat) (p : RankingCreate),
      (∀ ex, db.findByUser p.user_id = some ex →
        findConflict (db.itemsOf ex.id) p.items = none) →
      isOkB (create_ranking db now p).2 = true) := by
  constructor
  · intro db now p ex hex hconf
    rcases hni : findConflict (db.itemsOf ex.id) p.items with _ | ni
    · rw [hni] at hconf; cases hconf
    · simp [create_ranking, hex, hni, isConflictB, conflictError]
  · intro db now p hno
    rcases hex : db.findByUser p.user_id with _ | ex
    · simp [create_ranking, hex, isOkB]
    · simp [create_ranking, hex, hno ex hex, isOkB]

/-- Database holding one ranking `r1` of user `u1` with the single item
(Sencha, home). -/
def c1exdb : Database :=
  { rankings := [⟨"r1", "u1", 0, 0⟩]
    items := [⟨0, "r1", "Sencha", .home, 3, 1⟩]
    nextItemId := 1 }

/-- Payload of user `u1` colliding with the stored (Sencha, home). -/
def c1expayload : RankingCreate := ⟨"r9", "u1", [⟨"Sencha", .home, 2, 7⟩]⟩

/-- The same items submitted under the different user id `u2`. -/
def c1okpayload : RankingCreate := ⟨"r9", "u2", [⟨"Sencha", .home, 2, 7⟩]⟩

/-- Witness for C1 (amended): a colliding create for the same user is
rejected with 409, and the identical items under a different user id
succeed. -/
theorem claim1_witness :
    isConflictB (create_ranking c1exdb 3 c1expayload).2 = true ∧
    isOkB (create_ranking c1exdb 3 c1okpayload).2 = true := by
  constructor
  · exact claim1_amended.1 c1exdb 3 c1expayload ⟨"r1", "u1", 0, 0⟩ (by decide) (by decide)
  · refine claim1_amended.2 c1exdb 3 c1okpayload ?_
    intro ex hex
    have h0 : c1exdb.findByUser c1okpayload.user_id = none := by decide
    rw [h0] at hex
    exact Option.noConfusion hex

/-- Claim C2: `list_rankings` returns, for each ranking of the user in
stored order, exactly the items satisfying the conjunction of all set
filter predicates, in their original stored order (a `List.filter` of the
stored item list), omitting rankings whose filtered item list is empty
and replacing the items of the others by the filtered sublist; the
operation is a pure read of the state. -/
theorem claim2_filter_semantics (db : Database) (uid : String) (f : Filters) :
    (list_rankings db uid f =
      (db.rankings.filter fun r => r.user_id = uid).filterMap fun r =>
        let its := (db.itemsOf r.id).filter (matchesFilters f)
        if its.isEmpty then none else some (db_to_pydantic r its)) ∧
    ∀ i : RankedItemDB,
      matchesFilters f i = true ↔
        ((∀ m, f.min_rating = some m → m ≤ i.rating) ∧
         (∀ m, f.max_rating = some m → i.rating ≤ m) ∧
         (∀ m, f.max_cost = some m → i.cost_per_gram ≤ m) ∧
         (∀ o, f.origin = some o → i.origin = o)) := by
  constructor
  · simp only [list_rankings, applyFilters_eq]
  · intro i
    obtain ⟨mn, mx, mc, og⟩ := f
    rcases mn with _ | m1 <;> rcases mx with _ | m2 <;> rcases mc with _ | m3 <;>
      rcases og with _ | o4 <;> simp [matchesFilters, and_assoc]

/-- Database with one ranking of user `u5` holding three items of
different ratings, costs and origins, and one ranking of user `u6`. -/
def c2db : Database :=
  { rankings := [⟨"ra", "u5", 0, 0⟩, ⟨"rb", "u6", 0, 0⟩]
    items := [⟨0, "ra", "Ikuyo", .home, 3, 1⟩,
              ⟨1, "ra", "Uji", .cafe, 5, 4⟩,
              ⟨2, "ra", "Ceremonial", .home, 4, 2⟩,
              ⟨3, "rb", "Ikuyo", .home, 3, 1⟩]
    nextItemId := 4 }

/-- Witness for C2: at a concrete state and filter combination
(`min_rating = 4`, `origin = home`), the returned rankings are exactly
the AND-filtered non-empty ones. -/
theorem claim2_witness :
    list_rankings c2db "u5" ⟨some 4, none, none, some .home⟩ =
      [⟨"ra", "u5", [⟨"Ceremonial", .home, 4, 2⟩], 0, 0⟩] := by
  have h := (claim2_filter_semantics c2db "u5" ⟨some 4, none, none, some .home⟩).1
  rw [h]
  decide

theorem Origin.ofString_cases {s : String} {o : Origin}
    (h : Origin.ofString s = some o) : s = "home" ∨ s = "cafe" := by
  unfold Origin.ofString at h
  split_ifs at h with h1 h2
  · exact Or.inl h1
  · exact Or.inr h2

/-- Claim C3, counterexample: pydantic accepts an item whose `name` is the
empty string and whose `cost_per_gram` is negative (the model declares
`name: str` and `cost_per_gram: float` with no further constraint), and
`create_ranking` stores it: the claimed invariants "name is non-empty"
and "cost_per_gram >= 0" do not hold of stored items. -/
theorem claim3_counterexample :
    validateRankedItem ⟨"", "home", 3, -1⟩ = some ⟨"", .home, 3, -1⟩ ∧
    isOkB (create_ranking ⟨[], [], 0⟩ 0 ⟨"rx", "ux", [⟨"", .home, 3, -1⟩]⟩).2 = true ∧
    (create_ranking ⟨[], [], 0⟩ 0 ⟨"rx", "ux", [⟨"", .home, 3, -1⟩]⟩).1.itemsOf "rx"
      = [⟨0, "rx", "", .home, 3, -1⟩] := by decide

/-- Claim C3 (amended): the validation enforced on every item accepted
through the public interface is exactly: the origin string is one of
`home` / `cafe` and `0 ≤ rating ≤ 5`, with violations rejected as
validation errors; `name` and `cost_per_gram` pass through unconstrained
(so a stored item may have an empty name or a negative cost). The same
rating bound holds for a rating provided in a partial update. -/
theorem claim3_amended :
    (∀ (raw : RawRankedItem) (item : RankedItem),
      validateRankedItem raw = some item →
      (raw.origin = "home" ∨ raw.origin = "cafe") ∧
      0 ≤ item.rating ∧ item.rating ≤ 5 ∧
      item.name = raw.name ∧ item.rating = raw.rating ∧
      item.cost_per_gram = raw.cost_per_gram) ∧
    (∀ raw : RawRankedItem,
      raw.rating < 0 ∨ 5 < raw.rating ∨ Origin.ofString raw.origin = none →
      validateRankedItem raw = none) ∧
    (∀ (raw : RawRankedItemUpdate) (upd : RankedItemUpdate),
      validateRankedItemUpdate raw = some upd →
      ∀ q, upd.rating = some q → 0 ≤ q ∧ q ≤ 5) := by
  refine ⟨?_, ?_, ?_⟩
  · intro raw item h
    rcases ho : Origin.ofString raw.origin with _ | o
    · simp [validateRankedItem, ho] at h
    · simp only [validateRankedItem, ho] at h
      split_ifs at h with hb
      cases h
      exact ⟨Origin.ofString_cases ho, hb.1, hb.2, rfl, rfl, rfl⟩
  · intro raw hbad
    rcases ho : Origin.ofString raw.origin with _ | o
    · simp [validateRankedItem, ho]
    · rcases hbad with h | h | h
      · simp [validateRankedItem, ho]
        intro hge
        linarith
      · simp [validateRankedItem, ho]
        intro hge
        linarith
      · rw [ho] at h; cases h
  · intro raw upd h q hq
    rcases hog : parseOptionalOrigin raw.origin with _ | o
    · simp [validateRankedItemUpdate, hog] at h
    · simp only [validateRankedItemUpdate, hog] at h
      rcases hr : raw.rating with _ | qr
      · rw [hr] at h
        simp only [] at h
        cases h
        cases hq
      · rw [hr] at h
        simp only [] at h
        split_ifs at h with hb
        cases h
        cases hq
        exact hb

/-- Witness for C3 (amended): a well-formed item (valid origin string,
rating within bounds) is accepted and its accepted fields satisfy the
enforced constraints. -/
theorem claim3_witness :
    ((("cafe" : String) = "home" ∨ ("cafe" : String) = "cafe") ∧
      (0 : ℚ) ≤ 4 ∧ (4 : ℚ) ≤ 5 ∧
      ("Uji" : String) = "Uji" ∧ (4 : ℚ) = 4 ∧ (2 : ℚ) = 2) ∧
    validateRankedItem ⟨"Uji", "purple", 4, 2⟩ = none := by
  constructor
  · exact claim3_amended.1 ⟨"Uji", "cafe", 4, 2⟩ ⟨"Uji", .cafe, 4, 2⟩ (by decide)
  · exact claim3_amended.2.1 ⟨"Uji", "purple", 4, 2⟩ (Or.inr (Or.inr (by decide)))

/-- Claim C4: `update_single_item` fails with 404 and returns the state
unchanged (in particular `updated_at` untouched) when the ranking id does
not exist, and likewise for any index outside `[0, number of items)` of
an existing ranking; the bounds check precedes every mutation. -/
theorem claim4_patch_not_found :
    (∀ (db : Database) (now : Nat) (rid : String) (idx : Int) (p : RankedItemUpdate),
      db.findRanking rid = none →
      update_single_item db now rid idx p = (db, .error ⟨404, "Ranking not found"⟩)) ∧
    (∀ (db : Database) (now : Nat) (rid : String) (idx : Int) (p : RankedItemUpdate)
      (r : RankingDB), db.findRanking rid = some r →
      idx < 0 ∨ ((db.itemsOf rid).length : Int) ≤ idx →
      update_single_item db now rid idx p = (db, .error ⟨404, "Item not found"⟩)) := by
  constructor
  · intro db now rid idx p h
    simp [update_single_item, h]
  · intro db now rid idx p r h hout
    have hcond : ¬ (0 ≤ idx ∧ idx < ((db.itemsOf rid).length : Int)) := by
      rcases hout with h1 | h1
      · exact fun hc => absurd hc.1 (not_le.mpr h1)
      · exact fun hc => absurd hc.2 (not_lt.mpr h1)
    simp [update_single_item, h, hcond]

/-- Database with one ranking `r1` of user `u1` holding one item, shared
by the patch-endpoint witnesses. -/
def c4db : Database :=
  { rankings := [⟨"r1", "u1", 0, 0⟩]
    items := [⟨0, "r1", "Sencha", .home, 3, 1⟩]
    nextItemId := 1 }

/-- Witness for C4: missing ranking id, index past the end, and a
negative index each answer 404 with the state unchanged. -/
theorem claim4_witness :
    update_single_item c4db 9 "zz" 0 ⟨some "N", none, none, none⟩
      = (c4db, .error ⟨404, "Ranking not found"⟩) ∧
    update_single_item c4db 9 "r1" 5 ⟨some "N", none, none, none⟩
      = (c4db, .error ⟨404, "Item not found"⟩) ∧
    update_single_item c4db 9 "r1" (-1) ⟨some "N", none, none, none⟩
      = (c4db, .error ⟨404, "Item not found"⟩) := by
  refine ⟨?_, ?_, ?_⟩
  · exact claim4_patch_not_found.1 c4db 9 "zz" 0 _ (by decide)
  · exact claim4_patch_not_found.2 c4db 9 "r1" 5 _ ⟨"r1", "u1", 0, 0⟩ (by decide)
      (Or.inr (by decide))
  · exact claim4_patch_not_found.2 c4db 9 "r1" (-1) _ ⟨"r1", "u1", 0, 0⟩ (by decide)
      (Or.inl (by decide))

/-- Claim C7: on a valid patch, exactly the item at the given position is
replaced by the update applied to it, and `applyUpdate` overwrites
exactly the non-null payload fields (null fields, the surrogate id and
the foreign key are kept); every other item, the ranking's id, user_id
and created_at (only `updated_at` moves to now), and every other ranking
with its items are unchanged. -/
theorem claim7_patch_exact_fields :
    ∀ (db : Database) (now : Nat) (rid : String) (idx : Int) (p : RankedItemUpdate)
      (r : RankingDB),
      db.findRanking rid = some r →
      0 ≤ idx → idx < ((db.itemsOf rid).length : Int) →
      (update_single_item db now rid idx p).2 = .ok "Item updated" ∧
      (update_single_item db now rid idx p).1.itemsOf rid
        = modifyIdx (applyUpdate p) idx.toNat (db.itemsOf rid) ∧
      ((update_single_item db now rid idx p).1.itemsOf rid).get? idx.toNat
        = ((db.itemsOf rid).get? idx.toNat).map (applyUpdate p) ∧
      (∀ j : Nat, j ≠ idx.toNat →
        ((update_single_item db now rid idx p).1.itemsOf rid).get? j
          = (db.itemsOf rid).get? j) ∧
      (∀ x : RankedItemDB,
        (applyUpdate p x).name = p.name.getD x.name ∧
        (applyUpdate p x).origin = p.origin.getD x.origin ∧
        (applyUpdate p x).rating = p.rating.getD x.rating ∧
        (applyUpdate p x).cost_per_gram = p.cost_per_gram.getD x.cost_per_gram ∧
        (applyUpdate p x).id = x.id ∧
        (applyUpdate p x).ranking_id = x.ranking_id) ∧
      (update_single_item db now rid idx p).1.findRanking rid
        = some { r with updated_at := now } ∧
      (∀ rid2, rid2 ≠ rid →
        (update_single_item db now rid idx p).1.itemsOf rid2 = db.itemsOf rid2) ∧
      (∀ rid2, rid2 ≠ rid →
        (update_single_item db now rid idx p).1.findRanking rid2 = db.findRanking rid2) := by
  intro db now rid idx p r h h0 hlen
  have hres : update_single_item db now rid idx p =
      ({ rankings := db.rankings.map fun x =>
            if x.id = rid then { x with updated_at := now } else x
         items := updateMatch (fun x => x.ranking_id = rid) (applyUpdate p)
            idx.toNat db.items
         nextItemId := db.nextItemId },
       .ok "Item updated") := by
    simp [update_single_item, h, And.intro h0 hlen]
  have hself : (update_single_item db now rid idx p).1.itemsOf rid
      = modifyIdx (applyUpdate p) idx.toNat (db.itemsOf rid) := by
    rw [hres]
    simp only [Database.itemsOf]
    have hf : ∀ x : RankedItemDB,
        (fun y : RankedItemDB => decide (y.ranking_id = rid)) (applyUpdate p x)
          = (fun y : RankedItemDB => decide (y.ranking_id = rid)) x := fun _ => rfl
    exact filter_updateMatch_self _ (applyUpdate p) hf idx.toNat db.items
  refine ⟨by rw [hres], hself, ?_, ?_, ?_, ?_, ?_, ?_⟩
  · rw [hself, modifyIdx_get?, if_pos rfl]
  · intro j hj
    rw [hself, modifyIdx_get?, if_neg hj]
  · intro x
    exact ⟨rfl, rfl, rfl, rfl, rfl, rfl⟩
  · rw [hres]
    simp only [Database.findRanking]
    rw [find?_bump, if_pos rfl]
    unfold Database.findRanking at h
    rw [h]
    rfl
  · intro rid2 hne
    rw [hres]
    simp only [Database.itemsOf]
    apply filter_updateMatch_other
    · intro x hx
      simp only [decide_eq_true_eq] at hx
      simp only [decide_eq_false_iff_not]
      rw [hx]
      exact fun hh => hne hh.symm
    · intro x
      rfl
  · intro rid2 hne
    rw [hres]
    simp only [Database.findRanking]
    rw [find?_bump, if_neg hne]

/-- Witness for C7: patching name and rating of the single item of `r1`
changes exactly those fields of that item and bumps `updated_at`. -/
theorem claim7_witness :
    (update_single_item c4db 9 "r1" 0 ⟨some "Gyokuro", none, some 5, none⟩).1.itemsOf "r1"
      = [⟨0, "r1", "Gyokuro", .home, 5, 1⟩] ∧
    (update_single_item c4db 9 "r1" 0 ⟨some "Gyokuro", none, some 5, none⟩).1.findRanking "r1"
      = some ⟨"r1", "u1", 0, 9⟩ := by
  have h := claim7_patch_exact_fields c4db 9 "r1" 0 ⟨some "Gyokuro", none, some 5, none⟩
      ⟨"r1", "u1", 0, 0⟩ (by decide) (by decide) (by decide)
  constructor
  · rw [h.2.1]
    decide
  · exact h.2.2.2.2.2.1

/-- Claim C9: a patch whose fields are all null, on a valid index,
succeeds (HTTP 200 with the message), leaves the items table entirely
unchanged, and still sets the ranking's `updated_at` to now. -/
theorem claim9_null_patch_bumps_updated_at :
    ∀ (db : Database) (now : Nat) (rid : String) (idx : Int) (r : RankingDB),
      db.findRanking rid = some r →
      0 ≤ idx → idx < ((db.itemsOf rid).length : Int) →
      (update_single_item db now rid idx ⟨none, none, none, none⟩).2 = .ok "Item updated" ∧
      (update_single_item db now rid idx ⟨none, none, none, none⟩).1.items = db.items ∧
      (update_single_item db now rid idx ⟨none, none, none, none⟩).1.findRanking rid
        = some { r with updated_at := now } := by
  intro db now rid idx r h h0 hlen
  have hres : update_single_item db now rid idx ⟨none, none, none, none⟩ =
      ({ rankings := db.rankings.map fun x =>
            if x.id = rid then { x with updated_at := now } else x
         items := updateMatch (fun x => x.ranking_id = rid)
            (applyUpdate ⟨none, none, none, none⟩) idx.toNat db.items
         nextItemId := db.nextItemId },
       .ok "Item updated") := by
    simp [update_single_item, h, And.intro h0 hlen]
  refine ⟨by rw [hres], ?_, ?_⟩
  · rw [hres]
    exact updateMatch_of_id _ _ (fun x => rfl) _ _
  · rw [hres]
    simp only [Database.findRanking]
    rw [find?_bump, if_pos rfl]
    unfold Database.findRanking at h
    rw [h]
    rfl

/-- Witness for C9: an all-null patch of the single item of `r1` answers
200, keeps the items table identical, and bumps `updated_at` to 7. -/
theorem claim9_witness :
    (update_single_item c4db 7 "r1" 0 ⟨none, none, none, none⟩).2 = .ok "Item updated" ∧
    (update_single_item c4db 7 "r1" 0 ⟨none, none, none, none⟩).1.items = c4db.items ∧
    (update_single_item c4db 7 "r1" 0 ⟨none, none, none, none⟩).1.findRanking "r1"
      = some ⟨"r1", "u1", 0, 7⟩ := by
  have h := claim9_null_patch_bumps_updated_at c4db 7 "r1" 0 ⟨"r1", "u1", 0, 0⟩
      (by decide) (by decide) (by decide)
  exact ⟨h.1, h.2.1, h.2.2⟩

theorem replace_ranking_spec (db : Database) (now : Nat) (rid : String)
    (items : List RankedItem) (r : RankingDB) (h : db.findRanking rid = some r) :
    isOkB (replace_ranking db now rid items).2 = true ∧
    ((replace_ranking db now rid items).1.itemsOf rid).map RankedItemDB.payload = items ∧
    (replace_ranking db now rid items).1.findRanking rid
      = some { r with updated_at := now } := by
  have hres : replace_ranking db now rid items =
      ({ rankings := db.rankings.map fun x =>
            if x.id = rid then { x with updated_at := now } else x
         items := (db.items.filter fun x => ¬ x.ranking_id = rid)
            ++ (assignIds items rid db.nextItemId).1
         nextItemId := (assignIds items rid db.nextItemId).2 },
       .ok (db_to_pydantic { r with updated_at := now }
            (assignIds items rid db.nextItemId).1)) := by
    simp [replace_ranking, h]
  refine ⟨by rw [hres]; rfl, ?_, ?_⟩
  · rw [hres]
    simp only [Database.itemsOf]
    rw [filter_not_append_self _ _ _ (assignIds_ranking_id items rid db.nextItemId)]
    exact assignIds_payload items rid db.nextItemId
  · rw [hres]
    simp only [Database.findRanking]
    rw [find?_bump, if_pos rfl]
    unfold Database.findRanking at h
    rw [h]
    rfl

/-- Claim C5: `replace_ranking` on an existing ranking succeeds and is
idempotent modulo the regenerated surrogate item ids: after one call the
stored items project (ids forgotten) to exactly the submitted list, so a
second call with the same list leaves the projected item set unchanged,
and each call sets `updated_at` to its own timestamp; on a missing
ranking id it fails with 404 leaving the state unchanged. -/
theorem claim5_replace_idempotent :
    (∀ (db : Database) (t1 t2 : Nat) (rid : String) (items : List RankedItem)
      (r : RankingDB), db.findRanking rid = some r →
      isOkB (replace_ranking db t1 rid items).2 = true ∧
      ((replace_ranking db t1 rid items).1.itemsOf rid).map RankedItemDB.payload
        = items ∧
      (replace_ranking db t1 rid items).1.findRanking rid
        = some { r with updated_at := t1 } ∧
      isOkB (replace_ranking (replace_ranking db t1 rid items).1 t2 rid items).2
        = true ∧
      ((replace_ranking (replace_ranking db t1 rid items).1 t2 rid items).1.itemsOf
          rid).map RankedItemDB.payload
        = ((replace_ranking db t1 rid items).1.itemsOf rid).map RankedItemDB.payload ∧
      (replace_ranking (replace_ranking db t1 rid items).1 t2 rid items).1.findRanking
          rid
        = some { r with updated_at := t2 }) ∧
    (∀ (db : Database) (t : Nat) (rid : String) (items : List RankedItem),
      db.findRanking rid = none →
      replace_ranking db t rid items = (db, .error ⟨404, "Not found"⟩)) := by
  constructor
  · intro db t1 t2 rid items r h
    obtain ⟨ha1, ha2, ha3⟩ := replace_ranking_spec db t1 rid items r h
    obtain ⟨hb1, hb2, hb3⟩ :=
      replace_ranking_spec (replace_ranking db t1 rid items).1 t2 rid items _ ha3
    exact ⟨ha1, ha2, ha3, hb1, hb2.trans ha2.symm, hb3⟩
  · intro db t rid items h
    simp [replace_ranking, h]

/-- Witness for C5: replacing the items of `r1` twice with the same list
yields the same projected item set as replacing once, both calls bump
`updated_at`, and replacing a missing ranking answers 404. -/
theorem claim5_witness :
    ((replace_ranking c4db 1 "r1" [⟨"Hoji", .cafe, 1, 3⟩]).1.itemsOf "r1").map
        RankedItemDB.payload = [⟨"Hoji", .cafe, 1, 3⟩] ∧
    ((replace_ranking (replace_ranking c4db 1 "r1" [⟨"Hoji", .cafe, 1, 3⟩]).1 2 "r1"
        [⟨"Hoji", .cafe, 1, 3⟩]).1.itemsOf "r1").map RankedItemDB.payload
      = ((replace_ranking c4db 1 "r1" [⟨"Hoji", .cafe, 1, 3⟩]).1.itemsOf "r1").map
          RankedItemDB.payload ∧
    (replace_ranking (replace_ranking c4db 1 "r1" [⟨"Hoji", .cafe, 1, 3⟩]).1 2 "r1"
        [⟨"Hoji", .cafe, 1, 3⟩]).1.findRanking "r1" = some ⟨"r1", "u1", 0, 2⟩ ∧
    replace_ranking c4db 1 "zz" [] = (c4db, .error ⟨404, "Not found"⟩) := by
  have h := claim5_replace_idempotent.1 c4db 1 2 "r1" [⟨"Hoji", .cafe, 1, 3⟩]
      ⟨"r1", "u1", 0, 0⟩ (by decide)
  exact ⟨h.2.1, h.2.2.2.2.1, h.2.2.2.2.2,
    claim5_replace_idempotent.2 c4db 1 "zz" [] (by decide)⟩

/-- Claim C6: deleting an existing ranking removes its row and, through
the cascade on the `ranking_id` foreign key, every one of its item rows:
afterwards the ranking is gone from every read (`get_ranking` answers
404, `list_rankings` never mentions its id, no item row of that ranking
survives), while other rankings and their items are untouched; deleting
a missing id answers 404 and changes nothing. -/
theorem claim6_delete_cascade :
    (∀ (db : Database) (rid : String) (r : RankingDB),
      db.findRanking rid = some r →
      (delete_ranking db rid).2 = .ok () ∧
      (delete_ranking db rid).1.findRanking rid = none ∧
      (delete_ranking db rid).1.itemsOf rid = [] ∧
      get_ranking (delete_ranking db rid).1 rid = .error ⟨404, "Not found"⟩ ∧
      (∀ x ∈ (delete_ranking db rid).1.items, ¬ x.ranking_id = rid) ∧
      (∀ (uid : String) (f : Filters),
        ∀ out ∈ list_rankings (delete_ranking db rid).1 uid f, ¬ out.id = rid) ∧
      (∀ rid2, rid2 ≠ rid →
        (delete_ranking db rid).1.itemsOf rid2 = db.itemsOf rid2) ∧
      (∀ rid2, rid2 ≠ rid →
        (delete_ranking db rid).1.findRanking rid2 = db.findRanking rid2)) ∧
    (∀ (db : Database) (rid : String),
      db.findRanking rid = none →
      delete_ranking db rid = (db, .error ⟨404, "Not found"⟩)) := by
  constructor
  · intro db rid r h
    have hres : delete_ranking db rid =
        ({ rankings := db.rankings.filter fun x => ¬ x.id = rid
           items := db.items.filter fun x => ¬ x.ranking_id = rid
           nextItemId := db.nextItemId },
         .ok ()) := by
      simp [delete_ranking, h]
    have hfind : (delete_ranking db rid).1.findRanking rid = none := by
      rw [hres]
      simp only [Database.findRanking]
      apply List.find?_eq_none.mpr
      intro x hx
      rcases List.mem_filter.mp hx with ⟨_, hflt⟩
      simp only [decide_eq_true_eq] at hflt
      simpa using hflt
    have hitems : (delete_ranking db rid).1.itemsOf rid = [] := by
      rw [hres]
      simp only [Database.itemsOf]
      rw [List.filter_filter]
      apply List.filter_eq_nil_iff.mpr
      intro a _
      by_cases hh : a.ranking_id = rid <;> simp [hh]
    refine ⟨by rw [hres], hfind, hitems, ?_, ?_, ?_, ?_, ?_⟩
    · simp [get_ranking, hfind]
    · rw [hres]
      intro x hx
      have hflt := (List.mem_filter.mp hx).2
      simpa using hflt
    · intro uid f out hout
      simp only [list_rankings] at hout
      rcases List.mem_filterMap.mp hout with ⟨rr, hrr, hfn⟩
      have hid : ¬ rr.id = rid := by
        have hmem := (List.mem_filter.mp hrr).1
        rw [hres] at hmem
        have := (List.mem_filter.mp hmem).2
        simpa using this
      split at hfn
      · cases hfn
      · cases hfn
        exact hid
    · intro rid2 hne
      rw [hres]
      simp only [Database.itemsOf]
      rw [List.filter_filter]
      apply List.filter_congr
      intro a _
      by_cases hh : a.ranking_id = rid2
      · have hnr : ¬ a.ranking_id = rid := by rw [hh]; exact hne
        simp [hh, hnr, hne]
      · simp [hh]
    · intro rid2 hne
      rw [hres]
      simp only [Database.findRanking]
      apply find?_filter_of_imp
      intro x hx
      simp only [decide_eq_true_eq] at hx
      simp only [decide_eq_true_eq]
      rw [hx]
      exact fun hh => hne hh
  · intro db rid h
    simp [delete_ranking, h]

/-- Witness for C6: deleting `r1` from the two-ranking database removes
its row and item, leaves `r2` and its item intact, and deleting a
missing id answers 404. -/
theorem claim6_witness :
    (delete_ranking c1db "r1").2 = .ok () ∧
    (delete_ranking c1db "r1").1.findRanking "r1" = none ∧
    (delete_ranking c1db "r1").1.itemsOf "r1" = [] ∧
    get_ranking (delete_ranking c1db "r1").1 "r1" = .error ⟨404, "Not found"⟩ ∧
    (delete_ranking c1db "r1").1.itemsOf "r2" = c1db.itemsOf "r2" ∧
    delete_ranking c1db "zz" = (c1db, .error ⟨404, "Not found"⟩) := by
  have h := claim6_delete_cascade.1 c1db "r1" ⟨"r1", "u1", 0, 0⟩ (by decide)
  exact ⟨h.1, h.2.1, h.2.2.1, h.2.2.2.1, h.2.2.2.2.2.2.1 "r2" (by decide),
    claim6_delete_cascade.2 c1db "zz" (by decide)⟩

/-- Claim C10: `create_ranking` performs no duplicate check within the
payload itself — for a user with no stored ranking the duplicate scan is
skipped entirely, any payload (including one with two identical
(name, origin) items) is accepted with 201, and all its items are
stored in order. -/
theorem claim10_no_intra_payload_check :
    ∀ (db : Database) (now : Nat) (p : RankingCreate),
      db.findByUser p.user_id = none →
      db.itemsOf p.id = [] →
      isOkB (create_ranking db now p).2 = true ∧
      ((create_ranking db now p).1.itemsOf p.id).map RankedItemDB.payload = p.items := by
  intro db now p h hemp
  have hres : create_ranking db now p =
      ({ rankings := db.rankings ++ [⟨p.id, p.user_id, now, now⟩]
         items := db.items ++ (assignIds p.items p.id db.nextItemId).1
         nextItemId := (assignIds p.items p.id db.nextItemId).2 },
       .ok (db_to_pydantic ⟨p.id, p.user_id, now, now⟩
            (assignIds p.items p.id db.nextItemId).1)) := by
    simp [create_ranking, h]
  constructor
  · rw [hres]; rfl
  · rw [hres]
    simp only [Database.itemsOf, List.filter_append]
    unfold Database.itemsOf at hemp
    rw [hemp, List.nil_append]
    rw [List.filter_eq_self.mpr (by
      intro a ha
      simp [assignIds_ranking_id p.items p.id db.nextItemId a ha])]
    exact assignIds_payload p.items p.id db.nextItemId

/-- Payload holding the same (name, origin) item twice. -/
def c10payload : RankingCreate :=
  ⟨"r1", "u1", [⟨"Ikuyo", .home, 3, 1⟩, ⟨"Ikuyo", .home, 3, 1⟩]⟩

/-- Witness for C10: on an empty database the duplicate-bearing payload
is accepted and both copies are stored. -/
theorem claim10_witness :
    isOkB (create_ranking ⟨[], [], 0⟩ 4 c10payload).2 = true ∧
    ((create_ranking ⟨[], [], 0⟩ 4 c10payload).1.itemsOf "r1").map RankedItemDB.payload
      = [⟨"Ikuyo", .home, 3, 1⟩, ⟨"Ikuyo", .home, 3, 1⟩] := by
  have h := claim10_no_intra_payload_check ⟨[], [], 0⟩ 4 c10payload (by decide) (by decide)
  exact ⟨h.1, h.2⟩

/-- Claim C8, counterexample: a notification whose `data` key is present
but whose bytes fail to decode (the `base64.b64decode` / `json.loads`
calls stand outside the try block of `process_ranking_event`) raises to
the caller instead of being a logged no-op: the handler does not return
normally on a malformed payload. -/
theorem claim8_counterexample :
    process_ranking_event (some (.error "unparseable payload")) (fun _ => .ok none)
      = .error "unparseable payload" := rfl

/-- Claim C8 (amended): the consumer is a read-only no-op returning
normally when the `data` key is absent or when the decoded payload's
`event_type` differs from `ranking_created` (including absent), and for
a decodable payload it returns normally whatever the store lookup does
(found, missing, or failing — the try/except swallows store errors);
only a payload that fails to decode propagates an exception. -/
theorem claim8_amended :
    ∀ sr : Option String → Except String (Option RankingDB),
      process_ranking_event none sr = .ok .noData ∧
      (∀ d : EventPayload, ¬ d.event_type = some "ranking_created" →
        process_ranking_event (some (.ok d)) sr = .ok .skipped) ∧
      (∀ d : EventPayload, consumerOk (process_ranking_event (some (.ok d)) sr) = true) := by
  intro sr
  refine ⟨rfl, ?_, ?_⟩
  · intro d hd
    simp [process_ranking_event, hd]
  · intro d
    by_cases hd : d.event_type = some "ranking_created"
    · rcases hsr : sr d.ranking_id with e | (_ | rr) <;>
        simp [process_ranking_event, hd, hsr, consumerOk]
    · simp [process_ranking_event, hd, consumerOk]

/-- Witness for C8 (amended): with a store that always fails, the
consumer returns normally on an absent payload, on a foreign event type,
and on a `ranking_created` event whose store read raises. -/
theorem claim8_witness :
    process_ranking_event none (fun _ => .error "db down") = .ok .noData ∧
    process_ranking_event (some (.ok ⟨some "r1", some "other_event"⟩))
      (fun _ => .error "db down") = .ok .skipped ∧
    consumerOk (process_ranking_event (some (.ok ⟨some "r1", some "ranking_created"⟩))
      (fun _ => .error "db down")) = true := by
  have h := claim8_amended (fun _ => .error "db down")
  exact ⟨h.1, h.2.1 ⟨some "r1", some "other_event"⟩ (by decide),
    h.2.2 ⟨some "r1", some "ranking_created"⟩⟩
